import Mathlib

/-
  Shallow embedding of the `sheets` package of hse-concurrency-standings
  (src/internal/sheets/sheets.go).

  Modelling conventions:
  - Go errors are strings (the code builds all its errors with errors.New).
  - Backend (Google Sheets service) responses are passed in explicitly:
    each modelled operation takes the responses it would receive and
    returns its Go result together with the ordered list of backend calls
    it issued.
  - Go `interface{}` cell values read back from the backend are `GoValue`:
    either a string or a non-string (nil included); the code only ever
    type-asserts them to string.
  - A Go `map[string]int` is an association list with unique keys;
    `mapInsert` is map assignment (overwrite or append), `mapLookup k`
    is `m[k]` returning `Option`, and `(mapLookup ...).getD 0` is Go's
    zero-value indexing `m[k]` without the `, ok` form.
  - A nil-pointer dereference (a Go panic) is modelled by an `Option`
    result: `none` means the Go code panics on that path.
-/

namespace ConcurrencyStandings

abbrev GoErr := String

inductive GoValue where
  | str (s : String)
  | nonString
  deriving DecidableEq

/-- sheets.Color; the code never inspects the channels, it only passes the
pointer through, so the fields are carried opaquely. -/
structure Color where
  red : Int
  green : Int
  blue : Int
  deriving DecidableEq

/-- type Cell struct (sheets.go:16) -/
structure Cell where
  text : String
  hyperlink : String
  backgroundColor : Option Color
  deriving DecidableEq

/-- A Go `interface{}` passed as a row value: nil, a sheets.Cell, or any
other value (the code renders those via fmt.Sprintf, carried here as the
rendered string). -/
inductive CellValue where
  | null
  | cell (c : Cell)
  | other (s : String)
  deriving DecidableEq

/-- The parts of sheets.CellData the code writes: UserEnteredValue's
FormulaValue/StringValue and UserEnteredFormat's BackgroundColor. -/
structure CellData where
  formulaValue : Option String
  stringValue : Option String
  backgroundColor : Option Color
  deriving DecidableEq

def emptyCellData : CellData :=
  { formulaValue := none, stringValue := none, backgroundColor := none }

/-- formatCellData (sheets.go:238-267). -/
def formatCellData : CellValue → CellData
  | .null => emptyCellData
  | .cell v =>
    if v.hyperlink ≠ "" then
      if v.text ≠ "" then
        { formulaValue :=
            some ("=HYPERLINK(\"" ++ v.hyperlink ++ "\";\"" ++ v.text ++ "\")"),
          stringValue := none,
          backgroundColor := v.backgroundColor }
      else
        { formulaValue := some ("=HYPERLINK(\"" ++ v.hyperlink ++ "\")"),
          stringValue := none,
          backgroundColor := v.backgroundColor }
    else
      { formulaValue := none,
        stringValue := some v.text,
        backgroundColor := v.backgroundColor }
  | .other s =>
    { formulaValue := none, stringValue := some s, backgroundColor := none }

/- Column mapping (sheets.go:96-144). -/

def mapLookup (pairs : List (String × Nat)) (k : String) : Option Nat :=
  (pairs.find? (fun p => p.1 == k)).map (fun p => p.2)

/-- Go map assignment `m[k] = v`: overwrite if present, else append. -/
def mapInsert (pairs : List (String × Nat)) (k : String) (v : Nat) :
    List (String × Nat) :=
  if (pairs.find? (fun p => p.1 == k)).isSome then
    pairs.map (fun p => if p.1 == k then (k, v) else p)
  else
    pairs ++ [(k, v)]

/-- type columnMapping struct (sheets.go:96). -/
structure columnMapping where
  numColumns : Nat
  pairs : List (String × Nat)
  deriving DecidableEq

/-- newMapping (sheets.go:101). -/
def newMapping : columnMapping := { numColumns := 0, pairs := [] }

/-- The loop body shared by newMappingFromValueRange and
newMappingFromFields: `mapping.columnToIndex[name] = i; mapping.numColumns++`. -/
def mapAssign (m : columnMapping) (name : String) (i : Nat) : columnMapping :=
  { numColumns := m.numColumns + 1, pairs := mapInsert m.pairs name i }

/-- columnMapping.add (sheets.go:136-144): returns the (possibly fresh)
index together with the updated mapping. -/
def columnMapping.add (m : columnMapping) (field : String) :
    Nat × columnMapping :=
  match mapLookup m.pairs field with
  | some index => (index, m)
  | none => (m.numColumns, mapAssign m field m.numColumns)

/-- Loop of newMappingFromValueRange (sheets.go:114-122). -/
def mappingRowLoop : columnMapping → Nat → List GoValue →
    Except GoErr columnMapping
  | m, _, [] => .ok m
  | m, i, .str name :: rest => mappingRowLoop (mapAssign m name i) (i + 1) rest
  | _, _, .nonString :: _ => .error "Values should be strings"

/-- newMappingFromValueRange (sheets.go:108-125); the argument is
vrange.Values. -/
def newMappingFromValueRange (vals : List (List GoValue)) :
    Except GoErr columnMapping :=
  if vals.length ≠ 1 then .error "Expected exactly one row"
  else mappingRowLoop newMapping 0 (vals.headD [])

/-- Loop of newMappingFromFields (sheets.go:129-132). -/
def fieldsLoop : columnMapping → Nat → List String → columnMapping
  | m, _, [] => m
  | m, i, f :: fs => fieldsLoop (mapAssign m f i) (i + 1) fs

/-- newMappingFromFields (sheets.go:127-134). -/
def newMappingFromFields (fields : List String) : columnMapping :=
  fieldsLoop newMapping 0 fields

/-- loadSchema (sheets.go:171-190), given the backend's response to the
Values.Get on range sheet!1:1. The backend call itself is recorded by the
callers. -/
def loadSchemaResult (resp : Except GoErr (List (List GoValue))) :
    Except GoErr (Option columnMapping) :=
  match resp with
  | .error e => .error e
  | .ok vals =>
    if vals.length = 0 ∨ (vals.headD []).length = 0 then .ok none
    else if vals.length ≠ 1 then .error "Expected row of length 1"
    else
      match newMappingFromValueRange vals with
      | .error e => .error e
      | .ok m => .ok (some m)

/-- Header row built by putSchema (sheets.go:200-208): a row of
numColumns nil cells (`nonString`), with each field name scattered to its
index.  Go panics on an out-of-range index; that is the `none` result. -/
def putSchemaRow (m : columnMapping) : Option (List GoValue) :=
  m.pairs.foldlM
    (fun row p =>
      if p.2 < row.length then some (row.set p.2 (.str p.1)) else none)
    (List.replicate m.numColumns GoValue.nonString)

/-- Loop of validateSchema (sheets.go:220-227): the Bool is
hasUnknownField. -/
def validateSchemaLoop : columnMapping → Bool → List String →
    columnMapping × Bool
  | m, hasUnknown, [] => (m, hasUnknown)
  | m, hasUnknown, f :: fs =>
    match mapLookup m.pairs f with
    | some _ => validateSchemaLoop m hasUnknown fs
    | none => validateSchemaLoop (m.add f).2 true fs

/-- validateSchema's mapping-widening part (sheets.go:219-236); the Bool
records whether putSchema is then invoked to rewrite the header. -/
def validateSchema (m : columnMapping) (fields : List String) :
    columnMapping × Bool :=
  validateSchemaLoop m false fields

/-- The fields that validateSchema actually appends, in order: the fields
not present in the mapping at the moment their loop iteration runs
(a repeated fresh field is appended only once). -/
def freshFields (m : columnMapping) : List String → List String
  | [] => []
  | f :: fs =>
    match mapLookup m.pairs f with
    | some _ => freshFields m fs
    | none => f :: freshFields (m.add f).2 fs

/- Backend requests and calls. -/

/-- sheets.SortSpec as the code fills it (sheets.go:367-370). -/
structure SortSpec where
  sortOrder : String
  dimensionIndex : Nat
  deriving DecidableEq

/-- The sheets.Request variants the code constructs.  A GridRange with
only SheetId set (the whole sheet) is represented by the id alone. -/
inductive Request where
  | deleteRange (sheetId : Int) (shiftDimension : String)
  | copyPaste (sourceSheetId : Int) (destinationSheetId : Int)
  | deleteSheet (sheetId : Int)
  | duplicateSheet (newSheetId : Int) (newSheetName : String)
      (sourceSheetId : Int)
  | updateSheetProperties (sheetId : Int) (hidden : Bool)
  | appendCells (sheetId : Int) (rows : List (List (Option CellData)))
  | sortRange (sheetId : Int) (startRowIndex : Nat)
      (sortSpecs : List SortSpec)
  deriving DecidableEq

/-- The sheet ids a request mentions anywhere in its payload. -/
def Request.referencedSheets : Request → List Int
  | .deleteRange id _ => [id]
  | .copyPaste src dst => [src, dst]
  | .deleteSheet id => [id]
  | .duplicateSheet newId _ src => [newId, src]
  | .updateSheetProperties id _ => [id]
  | .appendCells id _ => [id]
  | .sortRange id _ _ => [id]

/-- One backend round trip, in the order the code issues them. -/
inductive BackendCall where
  | valuesGet (table : String) (range : String)
  | valuesUpdate (table : String) (range : String)
      (row : Option (List GoValue))
  | valuesClear (table : String) (range : String)
  | batchUpdate (table : String) (requests : List Request)
  | spreadsheetsGet (table : String)
  deriving DecidableEq

def firstRowRange (sheet : String) : String := sheet ++ "!1:1"

/- findSheetId (sheets.go:463-475). -/

structure SheetRef where
  title : String
  sheetId : Int
  deriving DecidableEq

/-- findSheetId, given the response to Spreadsheets.Get(table): scans the
container's sheets for the first title match. -/
def findSheetId (resp : Except GoErr (List SheetRef)) (sheet : String) :
    Except GoErr Int :=
  match resp with
  | .error e => .error e
  | .ok sheetRefs =>
    match sheetRefs.find? (fun r => r.title == sheet) with
    | some r => .ok r.sheetId
    | none => .error "Unknown sheet"

/- InsertQuery (sheets.go:37-94, 269-306). -/

structure InsertQuery where
  err : Option GoErr
  table : String
  sheet : String
  sheetId : Int
  fields : List String
  values : List (List CellValue)
  deriving DecidableEq

/-- Client.Insert (sheets.go:48-58), given the response to the
Spreadsheets.Get issued by findSheetId. -/
def clientInsert (spreadsheetResp : Except GoErr (List SheetRef))
    (table sheet : String) : InsertQuery :=
  match findSheetId spreadsheetResp sheet with
  | .ok sid =>
    { err := none, table := table, sheet := sheet, sheetId := sid,
      fields := [], values := [] }
  | .error e =>
    { err := some e, table := table, sheet := sheet, sheetId := 0,
      fields := [], values := [] }

/-- InsertQuery.Into (sheets.go:60-63). -/
def InsertQuery.into (q : InsertQuery) (fields : List String) : InsertQuery :=
  { q with fields := fields }

/-- InsertQuery.Rows (sheets.go:70-73). -/
def InsertQuery.withRows (q : InsertQuery) (rows : List (List CellValue)) :
    InsertQuery :=
  { q with values := q.values ++ rows }

/-- The backend responses an InsertQuery.Do run can consume. -/
structure InsertBackend where
  firstRowResp : Except GoErr (List (List GoValue))
  updateErr : Option GoErr
  appendErr : Option GoErr

def mismatchError : GoErr := "Mismatched numbers of values and fields"

/-- The scatter of one row (sheets.go:281-285):
`values[mapping.columnToIndex[field]] = formatCellData(row[j])`.
Go's zero-value map indexing is `getD 0`.  In every mapping produced by
getSchema all of the query's fields are present with index < numColumns,
so the `List.set` never falls out of range. -/
def scatterRow (m : columnMapping) (fields : List String)
    (row : List CellValue) : List (Option CellData) :=
  (fields.zip row).foldl
    (fun acc p =>
      acc.set ((mapLookup m.pairs p.1).getD 0) (some (formatCellData p.2)))
    (List.replicate m.numColumns none)

/-- Row loop of InsertQuery.execute (sheets.go:276-290): rejects the first
row whose length differs from the field count. -/
def executeRows (fields : List String) (m : columnMapping) :
    List (List CellValue) → Except GoErr (List (List (Option CellData)))
  | [] => .ok []
  | row :: rest =>
    if row.length ≠ fields.length then .error mismatchError
    else
      match executeRows fields m rest with
      | .error e => .error e
      | .ok rows => .ok (scatterRow m fields row :: rows)

/-- InsertQuery.execute (sheets.go:269-306), with the trace accumulated by
getSchema. -/
def insertExecute (q : InsertQuery) (b : InsertBackend) (m : columnMapping)
    (trace : List BackendCall) : Option GoErr × List BackendCall :=
  if q.fields.length = 0 then (none, trace)
  else
    match executeRows q.fields m q.values with
    | .error e => (some e, trace)
    | .ok rows =>
      (b.appendErr,
       trace ++ [.batchUpdate q.table [.appendCells q.sheetId rows]])

/-- InsertQuery.Do (sheets.go:75-94): builder error, empty-values no-op,
getSchema (sheets.go:146-169, inlined: loadSchema, then setSchema or
validateSchema), then execute. -/
def insertDo (q : InsertQuery) (b : InsertBackend) :
    Option GoErr × List BackendCall :=
  match q.err with
  | some e => (some e, [])
  | none =>
    if q.values.length = 0 then (none, [])
    else
      let getCall := BackendCall.valuesGet q.table (firstRowRange q.sheet)
      match loadSchemaResult b.firstRowResp with
      | .error e => (some e, [getCall])
      | .ok none =>
        let m := newMappingFromFields q.fields
        let putCall :=
          BackendCall.valuesUpdate q.table q.sheet (putSchemaRow m)
        match b.updateErr with
        | some e => (some e, [getCall, putCall])
        | none =>
          if m.numColumns ≠ q.fields.length then
            (some "Failed to map columns", [getCall, putCall])
          else insertExecute q b m [getCall, putCall]
      | .ok (some m0) =>
        let vres := validateSchema m0 q.fields
        if vres.2 then
          let putCall :=
            BackendCall.valuesUpdate q.table q.sheet (putSchemaRow vres.1)
          match b.updateErr with
          | some e => (some e, [getCall, putCall])
          | none => insertExecute q b vres.1 [getCall, putCall]
        else insertExecute q b vres.1 [getCall]

/- SortQuery (sheets.go:327-395). -/

structure SortQuery where
  table : String
  sheet : String
  sheetId : Option Int
  columns : List String
  deriving DecidableEq

/-- Client.Sort (sheets.go:335-348). -/
def clientSort (spreadsheetResp : Except GoErr (List SheetRef))
    (table sheet : String) : SortQuery :=
  match findSheetId spreadsheetResp sheet with
  | .ok sid => { table := table, sheet := sheet, sheetId := some sid,
                 columns := [] }
  | .error _ => { table := table, sheet := sheet, sheetId := none,
                  columns := [] }

/-- SortQuery.By (sheets.go:350-353). -/
def SortQuery.by (q : SortQuery) (columns : List String) : SortQuery :=
  { q with columns := columns }

/-- SortQuery.Do (sheets.go:355-395).  When loadSchema returns a nil
mapping (empty first row) and at least one sort column was requested, the
spec-building loop dereferences the nil schema pointer: that Go panic is
the `none` result. -/
def sortDo (q : SortQuery)
    (firstRowResp : Except GoErr (List (List GoValue)))
    (batchErr : Option GoErr) :
    Option (Option GoErr × List BackendCall) :=
  match q.sheetId with
  | none => some (some "Unknown sheet", [])
  | some sid =>
    let getCall := BackendCall.valuesGet q.table (firstRowRange q.sheet)
    match loadSchemaResult firstRowResp with
    | .error e => some (some e, [getCall])
    | .ok (some schema) =>
      let specs := q.columns.map
        (fun c => SortSpec.mk "ASCENDING" ((mapLookup schema.pairs c).getD 0))
      some (batchErr,
        [getCall, .batchUpdate q.table [.sortRange sid 1 specs]])
    | .ok none =>
      if q.columns.length = 0 then
        some (batchErr, [getCall, .batchUpdate q.table [.sortRange sid 1 []]])
      else none

/- Snapshot (sheets.go:397-519). -/

structure Snapshot where
  table : String
  originalSheetName : String
  originalSheetId : Int
  tempSheetName : String
  tempSheetId : Int
  deriving DecidableEq

/-- The batch Snapshot.Commit issues (sheets.go:489-511): delete all rows
of the original, copy-paste the full temp range over the original, delete
the temp sheet. -/
def commitRequests (s : Snapshot) : List Request :=
  [.deleteRange s.originalSheetId "ROWS",
   .copyPaste s.tempSheetId s.originalSheetId,
   .deleteSheet s.tempSheetId]

/-- Snapshot.Commit (sheets.go:489-511), given the batch response. -/
def Snapshot.commit (s : Snapshot) (batchErr : Option GoErr) :
    Option GoErr × List BackendCall :=
  (batchErr, [.batchUpdate s.table (commitRequests s)])

/-- The batch Snapshot.Rollback issues (sheets.go:513-519). -/
def rollbackRequests (s : Snapshot) : List Request :=
  [.deleteSheet s.tempSheetId]

/-- Snapshot.Rollback (sheets.go:513-519), given the batch response. -/
def Snapshot.rollback (s : Snapshot) (batchErr : Option GoErr) :
    Option GoErr × List BackendCall :=
  (batchErr, [.batchUpdate s.table (rollbackRequests s)])

/-- Client.WithSnapshot (sheets.go:444-461) after the snapshot was
created: runs the body, commits on success, rolls back on failure
returning the body's error (the rollback error is only logged).  The
trace lists the calls WithSnapshot itself issues after the body ran. -/
def withSnapshot (snapRes : Except GoErr Snapshot)
    (bodyErr commitErr rollbackErr : Option GoErr) :
    Option GoErr × List BackendCall :=
  match snapRes with
  | .error e => (some e, [])
  | .ok snapshot =>
    match bodyErr with
    | none => snapshot.commit commitErr
    | some e => (some e, (snapshot.rollback rollbackErr).2)

/- Auxiliary definitions used by the statements below. -/

/-- Whether a backend call writes rows (an AppendCells batch). -/
def isAppendCall : BackendCall → Bool
  | .batchUpdate _ reqs =>
    reqs.any fun r =>
      match r with
      | .appendCells _ _ => true
      | _ => false
  | _ => false

/-- The string content of a header cell (empty for a non-string cell). -/
def goValueText : GoValue → String
  | .str s => s
  | .nonString => ""

/-- The association list assigning consecutive indices (starting at i) to
a list of names; the shape newMappingFromValueRange produces on a clean
header row. -/
def indexedFrom : Nat → List String → List (String × Nat)
  | _, [] => []
  | i, nm :: rest => (nm, i) :: indexedFrom (i + 1) rest

/- Basic lemmas about the map model. -/

theorem mapLookup_nil (f : String) : mapLookup [] f = none := rfl

theorem mapLookup_append_left {pairs1 pairs2 : List (String × Nat)}
    {f : String} {i : Nat} (h : mapLookup pairs1 f = some i) :
    mapLookup (pairs1 ++ pairs2) f = some i := by
  unfold mapLookup at h ⊢
  rw [List.find?_append]
  cases hf : pairs1.find? (fun p => p.1 == f) with
  | none => rw [hf] at h; simp at h
  | some p => rw [hf] at h; simp [Option.or] at h ⊢; exact h

theorem mapLookup_append_right {pairs1 pairs2 : List (String × Nat)}
    {f : String} (h : mapLookup pairs1 f = none) :
    mapLookup (pairs1 ++ pairs2) f = mapLookup pairs2 f := by
  unfold mapLookup at h ⊢
  rw [List.find?_append]
  cases hf : pairs1.find? (fun p => p.1 == f) with
  | none => simp [Option.or]
  | some p => rw [hf] at h; simp at h

theorem mapLookup_singleton_self (f : String) (v : Nat) :
    mapLookup [(f, v)] f = some v := by
  simp [mapLookup, List.find?]

theorem mapLookup_singleton_ne {f g : String} (v : Nat) (h : f ≠ g) :
    mapLookup [(g, v)] f = none := by
  have hgf : (g == f) = false := by
    simp
    exact Ne.symm h
  simp [mapLookup, List.find?, hgf]

theorem mapLookup_find?_eq_none {pairs : List (String × Nat)} {f : String}
    (h : mapLookup pairs f = none) :
    pairs.find? (fun p => p.1 == f) = none := by
  unfold mapLookup at h
  cases hf : pairs.find? (fun p => p.1 == f) with
  | none => rfl
  | some p => rw [hf] at h; simp at h

theorem mapLookup_mem {pairs : List (String × Nat)} {f : String} {i : Nat}
    (h : mapLookup pairs f = some i) : (f, i) ∈ pairs := by
  unfold mapLookup at h
  cases hf : pairs.find? (fun p => p.1 == f) with
  | none => rw [hf] at h; simp at h
  | some p =>
    rw [hf] at h
    simp at h
    have hpred := List.find?_some hf
    have hmem : p ∈ pairs := List.mem_of_find?_eq_some hf
    have hp1 : p.1 = f := by simpa using hpred
    have hp : p = (f, i) := by
      cases p with
      | mk a b => simp_all
    rwa [hp] at hmem

theorem mapLookup_isSome_of_mem {pairs : List (String × Nat)}
    {f : String} {i : Nat} (h : (f, i) ∈ pairs) :
    (mapLookup pairs f).isSome := by
  have hf : (pairs.find? (fun p => p.1 == f)).isSome :=
    List.find?_isSome.mpr ⟨(f, i), h, by simp⟩
  unfold mapLookup
  cases hfind : pairs.find? (fun p => p.1 == f) with
  | none => rw [hfind] at hf; simp at hf
  | some p => simp

/- Lemmas about columnMapping.add. -/

theorem add_of_some {m : columnMapping} {f : String} {i : Nat}
    (h : mapLookup m.pairs f = some i) : m.add f = (i, m) := by
  simp [columnMapping.add, h]

theorem add_of_none {m : columnMapping} {f : String}
    (h : mapLookup m.pairs f = none) :
    m.add f = (m.numColumns,
      { numColumns := m.numColumns + 1,
        pairs := m.pairs ++ [(f, m.numColumns)] }) := by
  unfold columnMapping.add
  rw [h]
  unfold mapAssign mapInsert
  rw [mapLookup_find?_eq_none h]
  simp

theorem add_preserves_lookup {m : columnMapping} {g f : String} {i : Nat}
    (h : mapLookup m.pairs f = some i) :
    mapLookup ((m.add g).2).pairs f = some i := by
  cases hg : mapLookup m.pairs g with
  | some j => rw [add_of_some hg]; exact h
  | none => rw [add_of_none hg]; exact mapLookup_append_left h

theorem add_lookup_self_of_none {m : columnMapping} {f : String}
    (h : mapLookup m.pairs f = none) :
    mapLookup ((m.add f).2).pairs f = some m.numColumns := by
  rw [add_of_none h]
  rw [mapLookup_append_right h]
  exact mapLookup_singleton_self f m.numColumns

theorem add_numColumns_of_none {m : columnMapping} {f : String}
    (h : mapLookup m.pairs f = none) :
    ((m.add f).2).numColumns = m.numColumns + 1 := by
  rw [add_of_none h]

/- C1: the commit batch. -/

/-- Claim C1: for every snapshot, Commit issues exactly one backend batch
containing exactly three requests in this order — delete all rows of the
original sheet, copy-paste the temp sheet's full range over the original
sheet's range, delete the temp sheet — and every sheet referenced by the
batch is the original or the temp sheet. -/
theorem commit_single_batch (s : Snapshot) (batchErr : Option GoErr) :
    (s.commit batchErr).2
      = [.batchUpdate s.table
          [.deleteRange s.originalSheetId "ROWS",
           .copyPaste s.tempSheetId s.originalSheetId,
           .deleteSheet s.tempSheetId]]
    ∧ ((commitRequests s).all fun r =>
        (r.referencedSheets).all fun id =>
          id == s.originalSheetId || id == s.tempSheetId) = true := by
  refine ⟨rfl, ?_⟩
  simp [commitRequests, Request.referencedSheets]

/- C2: body failure rolls back and returns the body's error. -/

/-- Claim C2: when the body fails, WithSnapshot calls Rollback — whose
single batch holds one request deleting the temp sheet, and (when the two
sheet ids differ) never references the original sheet — and returns the
body's error even when the rollback itself fails. -/
theorem withSnapshot_body_error_rolls_back (s : Snapshot) (e : GoErr)
    (commitErr rollbackErr : Option GoErr) :
    withSnapshot (.ok s) (some e) commitErr rollbackErr
      = (some e, [.batchUpdate s.table [.deleteSheet s.tempSheetId]])
    ∧ rollbackRequests s = [.deleteSheet s.tempSheetId]
    ∧ (s.tempSheetId ≠ s.originalSheetId →
        ((rollbackRequests s).all fun r =>
          !(r.referencedSheets).contains s.originalSheetId) = true) := by
  refine ⟨rfl, rfl, fun hne => ?_⟩
  simp [rollbackRequests, Request.referencedSheets, List.contains,
    Ne.symm hne]

theorem withSnapshot_body_error_rolls_back_witness :
    withSnapshot
        (.ok { table := "t", originalSheetName := "orig",
               originalSheetId := 1, tempSheetName := "tmp",
               tempSheetId := 2 })
        (some "boom") none (some "rollback failed")
      = (some "boom", [.batchUpdate "t" [.deleteSheet 2]]) := by
  exact (withSnapshot_body_error_rolls_back
    { table := "t", originalSheetName := "orig", originalSheetId := 1,
      tempSheetName := "tmp", tempSheetId := 2 }
    "boom" none (some "rollback failed")).1

/- C7: the cell encoder. -/

/-- Claim C7: formatCellData is total (a Lean function over all
CellValues) and maps nil to an empty cell; a Cell with non-empty
hyperlink and non-empty text to a hyperlink formula carrying both; a
non-empty hyperlink with empty text to a link-only formula; an empty
hyperlink to the plain text value; the background color is attached in
every Cell branch. -/
theorem formatCellData_branches (c : Cell) :
    formatCellData CellValue.null = emptyCellData
    ∧ (c.hyperlink ≠ "" → c.text ≠ "" →
        formatCellData (.cell c)
          = { formulaValue := some ("=HYPERLINK(\"" ++ c.hyperlink
                ++ "\";\"" ++ c.text ++ "\")"),
              stringValue := none,
              backgroundColor := c.backgroundColor })
    ∧ (c.hyperlink ≠ "" → c.text = "" →
        formatCellData (.cell c)
          = { formulaValue := some ("=HYPERLINK(\"" ++ c.hyperlink ++ "\")"),
              stringValue := none,
              backgroundColor := c.backgroundColor })
    ∧ (c.hyperlink = "" →
        formatCellData (.cell c)
          = { formulaValue := none,
              stringValue := some c.text,
              backgroundColor := c.backgroundColor }) := by
  refine ⟨rfl, fun h1 h2 => ?_, fun h1 h2 => ?_, fun h1 => ?_⟩
  · simp [formatCellData, h1, h2]
  · simp [formatCellData, h1, h2]
  · simp [formatCellData, h1]

theorem formatCellData_branches_witness :
    formatCellData
        (.cell { text := "task", hyperlink := "https://x",
                 backgroundColor := some { red := 1, green := 0, blue := 0 } })
      = { formulaValue := some "=HYPERLINK(\"https://x\";\"task\")",
          stringValue := none,
          backgroundColor := some { red := 1, green := 0, blue := 0 } } := by
  exact (formatCellData_branches
    { text := "task", hyperlink := "https://x",
      backgroundColor := some { red := 1, green := 0, blue := 0 } }).2.1
    (by decide) (by decide)

/- C8: empty first row resolves to Absent. -/

/-- Claim C8: whenever the backend's first-row read succeeds and returns
either no rows or a first row with no cells, schema resolution returns
the Absent outcome (ok none), never an error. -/
theorem loadSchema_empty_first_row (vals : List (List GoValue))
    (h : vals = [] ∨ vals.headD [] = []) :
    loadSchemaResult (.ok vals) = .ok none := by
  have hcond : vals.length = 0 ∨ (vals.headD []).length = 0 := by
    rcases h with h | h
    · left; simp [h]
    · right; rw [h]; simp
  simp only [loadSchemaResult]
  rw [if_pos hcond]

theorem loadSchema_empty_first_row_witness :
    loadSchemaResult (.ok [([] : List GoValue)]) = .ok none := by
  exact loadSchema_empty_first_row [[]] (Or.inr rfl)

/- C10: Sort.Do dereferences a nil schema. -/

/-- Claim C10 is false of the code: with the sheet resolved, an empty
first row (schema Absent, loadSchema returns nil) and one requested sort
column, Sort.Do dereferences the nil schema pointer — the model's `none`
result, a Go panic. -/
theorem sortDo_nil_schema_panics :
    sortDo { table := "t", sheet := "s", sheetId := some 5,
             columns := ["A"] }
      (.ok []) none = none := rfl

/- C6: Insert with zero accumulated rows. -/

/-- Claim C6, amended: with zero accumulated rows, Do issues zero backend
calls and returns the builder's stored error — none when the sheet was
found, the unknown-sheet error when it was not (so it is not a no-op
success for a nonexistent sheet). -/
theorem insertDo_zero_rows (q : InsertQuery) (b : InsertBackend)
    (h : q.values = []) :
    insertDo q b = (q.err, []) := by
  cases he : q.err with
  | some e => simp [insertDo, he]
  | none => simp [insertDo, he, h]

theorem insertDo_zero_rows_witness :
    insertDo
        { err := none, table := "tbl", sheet := "s", sheetId := 7,
          fields := [], values := [] }
        { firstRowResp := .ok [], updateErr := none, appendErr := none }
      = (none, []) := by
  exact insertDo_zero_rows
    { err := none, table := "tbl", sheet := "s", sheetId := 7,
      fields := [], values := [] }
    { firstRowResp := .ok [], updateErr := none, appendErr := none } rfl

/-- Counterexample to claim C6 as stated: for a sheet name absent from
the container, Do with zero rows returns the unknown-sheet error rather
than a no-op success. -/
theorem insertDo_zero_rows_unknown_sheet_errors :
    (insertDo
        (clientInsert (.ok [{ title := "standings", sheetId := 7 }])
          "tbl" "missing")
        { firstRowResp := .ok [], updateErr := none, appendErr := none }).1
      = some "Unknown sheet"
    ∧ insertDo
        (clientInsert (.ok [{ title := "standings", sheetId := 7 }])
          "tbl" "missing")
        { firstRowResp := .ok [], updateErr := none, appendErr := none }
      ≠ (none, []) := by
  refine ⟨rfl, ?_⟩
  decide

/- C5: Sort with an unknown sort column. -/

/-- Claim C5, amended: Sort.Do performs no unknown-column check.  With
the sheet resolved and a present schema, it always issues exactly one
batched sort-range request with StartRowIndex 1 (header row excluded),
ascending order and the keys in the given left-to-right order; a key
missing from the schema is silently assigned dimension index 0 (the Go
map zero value) instead of failing. -/
theorem sortDo_issues_sort_with_default_index (q : SortQuery) (sid : Int)
    (schema : columnMapping)
    (resp : Except GoErr (List (List GoValue))) (batchErr : Option GoErr)
    (hsid : q.sheetId = some sid)
    (hschema : loadSchemaResult resp = .ok (some schema)) :
    sortDo q resp batchErr
      = some (batchErr,
          [.valuesGet q.table (firstRowRange q.sheet),
           .batchUpdate q.table
             [.sortRange sid 1
               (q.columns.map fun c =>
                 { sortOrder := "ASCENDING",
                   dimensionIndex := (mapLookup schema.pairs c).getD 0 })]]) := by
  simp [sortDo, hsid, hschema]

theorem sortDo_issues_sort_with_default_index_witness :
    sortDo { table := "t", sheet := "s", sheetId := some 5,
             columns := ["A"] }
        (.ok [[GoValue.str "A"]]) none
      = some (none,
          [.valuesGet "t" "s!1:1",
           .batchUpdate "t"
             [.sortRange 5 1
               [{ sortOrder := "ASCENDING", dimensionIndex := 0 }]]]) := by
  have h := sortDo_issues_sort_with_default_index
    { table := "t", sheet := "s", sheetId := some 5, columns := ["A"] }
    5 { numColumns := 1, pairs := [("A", 0)] }
    (.ok [[GoValue.str "A"]]) none rfl rfl
  simpa using h

/-- Counterexample to claim C5 as stated: with schema [A] and sort key B
(absent from the schema), Do returns no error and does issue a sort-range
request, sorting by dimension index 0. -/
theorem sortDo_unknown_column_no_error :
    sortDo { table := "t", sheet := "s", sheetId := some 5,
             columns := ["B"] }
        (.ok [[GoValue.str "A"]]) none
      = some (none,
          [.valuesGet "t" "s!1:1",
           .batchUpdate "t"
             [.sortRange 5 1
               [{ sortOrder := "ASCENDING", dimensionIndex := 0 }]]]) := rfl

/- C4: row-shape mismatch. -/

theorem fieldsLoop_numColumns (fields : List String) :
    ∀ (m : columnMapping) (i : Nat),
      (fieldsLoop m i fields).numColumns = m.numColumns + fields.length := by
  induction fields with
  | nil => intro m i; simp [fieldsLoop]
  | cons f fs ih =>
    intro m i
    simp only [fieldsLoop, List.length_cons]
    rw [ih]
    simp [mapAssign]
    omega

theorem newMappingFromFields_numColumns (fields : List String) :
    (newMappingFromFields fields).numColumns = fields.length := by
  simp [newMappingFromFields, fieldsLoop_numColumns, newMapping]

theorem executeRows_mismatch (fields : List String) (m : columnMapping)
    (values : List (List CellValue))
    (h : ∃ row ∈ values, row.length ≠ fields.length) :
    executeRows fields m values = .error mismatchError := by
  induction values with
  | nil => simp at h
  | cons row rest ih =>
    rcases h with ⟨r, hr, hlen⟩
    simp only [executeRows]
    by_cases hrow : row.length ≠ fields.length
    · rw [if_pos hrow]
    · rw [if_neg hrow]
      rcases List.mem_cons.mp hr with rfl | hmem
      · exact absurd hlen hrow
      · rw [ih ⟨r, hmem, hlen⟩]

theorem insertExecute_mismatch (q : InsertQuery) (b : InsertBackend)
    (m : columnMapping) (trace : List BackendCall)
    (hfields : q.fields ≠ [])
    (hbad : ∃ row ∈ q.values, row.length ≠ q.fields.length) :
    insertExecute q b m trace = (some mismatchError, trace) := by
  simp only [insertExecute]
  rw [if_neg (fun h => hfields (List.length_eq_zero.mp h))]
  rw [executeRows_mismatch q.fields m q.values hbad]

/-- Claim C4, amended: when at least one field is declared and some
accumulated row's value count differs from the field count, Do fails with
the row-shape-mismatch error and no row-append request reaches the
backend; however the schema read — and, when the run widens or creates
the schema, the header write — do reach the backend before the failure,
so the trace is non-empty. -/
theorem insertDo_row_shape_mismatch (q : InsertQuery) (b : InsertBackend)
    (herr : q.err = none) (hfields : q.fields ≠ [])
    (hbad : ∃ row ∈ q.values, row.length ≠ q.fields.length)
    (hload : ∃ s, loadSchemaResult b.firstRowResp = .ok s)
    (hupdate : b.updateErr = none) :
    (insertDo q b).1 = some mismatchError
    ∧ ((insertDo q b).2.all fun c => !(isAppendCall c)) = true
    ∧ (insertDo q b).2 ≠ [] := by
  obtain ⟨s, hs⟩ := hload
  have hvals : ¬ q.values.length = 0 := by
    rcases hbad with ⟨r, hr, _⟩
    intro h0
    rw [List.length_eq_zero] at h0
    rw [h0] at hr
    simp at hr
  have hrun : insertDo q b = (some mismatchError, (insertDo q b).2)
      ∧ ((insertDo q b).2.all fun c => !(isAppendCall c)) = true
      ∧ (insertDo q b).2 ≠ [] := by
    simp only [insertDo, herr]
    rw [if_neg hvals, hs]
    cases s with
    | none =>
      simp only [hupdate]
      rw [if_neg (by simp [newMappingFromFields_numColumns] :
        ¬ (newMappingFromFields q.fields).numColumns ≠ q.fields.length)]
      rw [insertExecute_mismatch q b _ _ hfields hbad]
      simp [isAppendCall]
    | some m0 =>
      by_cases hu : (validateSchema m0 q.fields).2
      · simp only [hu, if_true, hupdate]
        rw [insertExecute_mismatch q b _ _ hfields hbad]
        simp [isAppendCall]
      · simp only [hu]
        rw [if_neg (by simp [hu])]
        rw [insertExecute_mismatch q b _ _ hfields hbad]
        simp [isAppendCall]
  exact ⟨by rw [hrun.1], hrun.2.1, hrun.2.2⟩

theorem insertDo_row_shape_mismatch_witness :
    (insertDo
        { err := none, table := "t", sheet := "s", sheetId := 5,
          fields := ["A"],
          values := [[CellValue.other "x", CellValue.other "y"]] }
        { firstRowResp := .ok [[GoValue.str "A"]], updateErr := none,
          appendErr := none }).1
      = some mismatchError := by
  exact (insertDo_row_shape_mismatch
    { err := none, table := "t", sheet := "s", sheetId := 5,
      fields := ["A"],
      values := [[CellValue.other "x", CellValue.other "y"]] }
    { firstRowResp := .ok [[GoValue.str "A"]], updateErr := none,
      appendErr := none }
    rfl (by decide)
    ⟨[CellValue.other "x", CellValue.other "y"], by simp, by decide⟩
    ⟨some { numColumns := 1, pairs := [("A", 0)] }, rfl⟩ rfl).1

/-- Counterexample to claim C4 as stated: with fields [A] and one row of
two values, Do does fail with the row-shape-mismatch error, but only
after the schema read reached the backend — the backend call trace is not
empty, contradicting "no backend call is made". -/
theorem insertDo_mismatch_backend_call_made :
    insertDo
        { err := none, table := "t", sheet := "s", sheetId := 5,
          fields := ["A"],
          values := [[CellValue.other "x", CellValue.other "y"]] }
        { firstRowResp := .ok [[GoValue.str "A"]], updateErr := none,
          appendErr := none }
      = (some mismatchError, [.valuesGet "t" "s!1:1"])
    ∧ ([BackendCall.valuesGet "t" "s!1:1"] : List BackendCall) ≠ [] := by
  refine ⟨rfl, ?_⟩
  decide

/- C3: schema widening. -/

theorem validateSchemaLoop_cons (m : columnMapping) (has : Bool)
    (g : String) (fs : List String) :
    validateSchemaLoop m has (g :: fs)
      = match mapLookup m.pairs g with
        | some _ => validateSchemaLoop m has fs
        | none => validateSchemaLoop (m.add g).2 true fs := rfl

theorem freshFields_cons (m : columnMapping) (g : String)
    (fs : List String) :
    freshFields m (g :: fs)
      = match mapLookup m.pairs g with
        | some _ => freshFields m fs
        | none => g :: freshFields (m.add g).2 fs := rfl

theorem validateSchemaLoop_preserves (fields : List String) :
    ∀ (m : columnMapping) (has : Bool) (f : String) (i : Nat),
      mapLookup m.pairs f = some i →
      mapLookup (validateSchemaLoop m has fields).1.pairs f = some i := by
  induction fields with
  | nil => intro m has f i h; exact h
  | cons g fs ih =>
    intro m has f i h
    rw [validateSchemaLoop_cons]
    cases hg : mapLookup m.pairs g with
    | some j =>
      show mapLookup (validateSchemaLoop m has fs).1.pairs f = some i
      exact ih m has f i h
    | none =>
      show mapLookup (validateSchemaLoop (m.add g).2 true fs).1.pairs f
        = some i
      exact ih _ true f i (add_preserves_lookup h)

theorem validateSchemaLoop_snd (fields : List String) :
    ∀ (m : columnMapping) (has : Bool),
      (validateSchemaLoop m has fields).2
        = (has || fields.any fun f => (mapLookup m.pairs f).isNone) := by
  induction fields with
  | nil => intro m has; simp [validateSchemaLoop]
  | cons g fs ih =>
    intro m has
    rw [validateSchemaLoop_cons]
    cases hg : mapLookup m.pairs g with
    | some j =>
      show (validateSchemaLoop m has fs).2 = _
      rw [ih m has]
      simp [hg]
    | none =>
      show (validateSchemaLoop (m.add g).2 true fs).2 = _
      rw [ih _ true]
      simp [hg]

theorem validateSchemaLoop_numColumns (fields : List String) :
    ∀ (m : columnMapping) (has : Bool),
      (validateSchemaLoop m has fields).1.numColumns
        = m.numColumns + (freshFields m fields).length := by
  induction fields with
  | nil => intro m has; simp [validateSchemaLoop, freshFields]
  | cons g fs ih =>
    intro m has
    rw [validateSchemaLoop_cons, freshFields_cons]
    cases hg : mapLookup m.pairs g with
    | some j =>
      show (validateSchemaLoop m has fs).1.numColumns
        = m.numColumns + (freshFields m fs).length
      exact ih m has
    | none =>
      show (validateSchemaLoop (m.add g).2 true fs).1.numColumns
        = m.numColumns + (g :: freshFields (m.add g).2 fs).length
      rw [ih _ true]
      rw [add_numColumns_of_none hg]
      simp only [List.length_cons]
      omega

theorem validateSchemaLoop_assigns (fields : List String) :
    ∀ (m : columnMapping) (has : Bool) (k : Nat) (f : String),
      (freshFields m fields)[k]? = some f →
      mapLookup (validateSchemaLoop m has fields).1.pairs f
        = some (m.numColumns + k) := by
  induction fields with
  | nil => intro m has k f h; simp [freshFields] at h
  | cons g fs ih =>
    intro m has k f h
    rw [freshFields_cons] at h
    rw [validateSchemaLoop_cons]
    cases hg : mapLookup m.pairs g with
    | some j =>
      rw [hg] at h
      show mapLookup (validateSchemaLoop m has fs).1.pairs f
        = some (m.numColumns + k)
      exact ih m has k f h
    | none =>
      rw [hg] at h
      show mapLookup (validateSchemaLoop (m.add g).2 true fs).1.pairs f
        = some (m.numColumns + k)
      cases k with
      | zero =>
        have hf : g = f := by simpa using h
        subst hf
        have hgsome := add_lookup_self_of_none hg
        have := validateSchemaLoop_preserves fs (m.add g).2 true g
          m.numColumns hgsome
        simpa using this
      | succ k1 =>
        simp only [List.getElem?_cons_succ] at h
        have := ih (m.add g).2 true k1 f h
        rw [add_numColumns_of_none hg] at this
        rw [this]
        congr 1
        omega

/-- Claim C3: schema widening preserves every existing index assignment;
each field not yet present (freshFields lists them in the order the loop
appends them) is assigned the next free index numColumns, numColumns+1,
…; and the hasUnknownField flag — which is exactly the condition under
which the header row is rewritten via putSchema — is set iff some
requested field was absent from the existing mapping. -/
theorem validateSchema_widening (m : columnMapping) (fields : List String) :
    (∀ f i, mapLookup m.pairs f = some i →
      mapLookup (validateSchema m fields).1.pairs f = some i)
    ∧ (∀ k f, (freshFields m fields)[k]? = some f →
        mapLookup (validateSchema m fields).1.pairs f
          = some (m.numColumns + k))
    ∧ ((validateSchema m fields).2
        = fields.any fun f => (mapLookup m.pairs f).isNone)
    ∧ (validateSchema m fields).1.numColumns
        = m.numColumns + (freshFields m fields).length := by
  refine ⟨fun f i h => validateSchemaLoop_preserves fields m false f i h,
    fun k f h => validateSchemaLoop_assigns fields m false k f h,
    ?_, validateSchemaLoop_numColumns fields m false⟩
  show (validateSchemaLoop m false fields).2 = _
  rw [validateSchemaLoop_snd fields m false]
  simp

theorem validateSchema_widening_witness :
    mapLookup
        (validateSchema { numColumns := 2, pairs := [("A", 0), ("B", 1)] }
          ["A", "C"]).1.pairs "A" = some 0
    ∧ mapLookup
        (validateSchema { numColumns := 2, pairs := [("A", 0), ("B", 1)] }
          ["A", "C"]).1.pairs "C" = some 2 := by
  refine ⟨(validateSchema_widening
      { numColumns := 2, pairs := [("A", 0), ("B", 1)] } ["A", "C"]).1
      "A" 0 rfl, ?_⟩
  exact (validateSchema_widening
    { numColumns := 2, pairs := [("A", 0), ("B", 1)] } ["A", "C"]).2.1
    0 "C" rfl

/- C9: the header round trip. -/

theorem putSchemaRow_fold (pairs : List (String × Nat)) :
    ∀ (row : List GoValue),
      (∀ p ∈ pairs, p.2 < row.length) →
      (pairs.map Prod.snd).Nodup →
      ∃ row2,
        (pairs.foldlM
          (fun r p =>
            if p.2 < r.length then some (r.set p.2 (.str p.1)) else none)
          row) = some row2
        ∧ row2.length = row.length
        ∧ ∀ i, i < row.length →
            row2[i]? = (match pairs.find? (fun p => p.2 == i) with
                        | some p => some (GoValue.str p.1)
                        | none => row[i]?) := by
  induction pairs with
  | nil =>
    intro row hlt hnd
    exact ⟨row, rfl, rfl, fun i hi => by simp [List.find?]⟩
  | cons p rest ih =>
    intro row hlt hnd
    have hp : p.2 < row.length := hlt p (by simp)
    have hrest : ∀ q ∈ rest, q.2 < (row.set p.2 (.str p.1)).length := by
      intro q hq
      simpa using hlt q (by simp [hq])
    rw [List.map_cons, List.nodup_cons] at hnd
    obtain ⟨row2, hfold, hlen, hget⟩ :=
      ih (row.set p.2 (.str p.1)) hrest hnd.2
    refine ⟨row2, ?_, ?_, ?_⟩
    · rw [List.foldlM_cons]
      rw [if_pos hp]
      simpa using hfold
    · rw [hlen]; simp
    · intro i hi
      have hi2 : i < (row.set p.2 (.str p.1)).length := by simpa using hi
      have hr2 := hget i hi2
      by_cases hpi : p.2 = i
      · subst hpi
        rw [List.find?_cons_of_pos rest (by simp)]
        have hnone : rest.find? (fun q => q.2 == p.2) = none := by
          rw [List.find?_eq_none]
          intro q hq
          simp only [beq_iff_eq]
          intro hqe
          exact hnd.1 (List.mem_map.mpr ⟨q, hq, hqe⟩)
        rw [hnone] at hr2
        rw [hr2]
        simp [List.getElem?_set_self hp]
      · rw [List.find?_cons_of_neg rest (by simp [hpi])]
        cases hfind : rest.find? (fun q => q.2 == i) with
        | some q => rw [hfind] at hr2; rw [hr2]
        | none =>
          rw [hfind] at hr2
          rw [hr2]
          exact List.getElem?_set_ne hpi

theorem mapLookup_cons_self {f : String} {v : Nat}
    {rest : List (String × Nat)} :
    mapLookup ((f, v) :: rest) f = some v := by
  unfold mapLookup
  rw [List.find?_cons_of_pos rest (by simp)]
  rfl

theorem mapLookup_cons_ne {g f : String} {v : Nat}
    {rest : List (String × Nat)} (h : g ≠ f) :
    mapLookup ((g, v) :: rest) f = mapLookup rest f := by
  unfold mapLookup
  rw [List.find?_cons_of_neg rest (by simp [h])]

theorem mappingRowLoop_strings (names : List String) :
    ∀ (m : columnMapping) (i : Nat),
      (∀ nm ∈ names, mapLookup m.pairs nm = none) →
      names.Nodup →
      mappingRowLoop m i (names.map GoValue.str)
        = .ok { numColumns := m.numColumns + names.length,
                pairs := m.pairs ++ indexedFrom i names } := by
  induction names with
  | nil => intro m i _ _; simp [mappingRowLoop, indexedFrom]
  | cons nm rest ih =>
    intro m i hfresh hnd
    rw [List.map_cons]
    show mappingRowLoop (mapAssign m nm i) (i + 1) (rest.map GoValue.str) = _
    have hnm : mapLookup m.pairs nm = none := hfresh nm (by simp)
    have hassign : mapAssign m nm i
        = { numColumns := m.numColumns + 1,
            pairs := m.pairs ++ [(nm, i)] } := by
      unfold mapAssign mapInsert
      rw [mapLookup_find?_eq_none hnm]
      simp
    rw [List.nodup_cons] at hnd
    have hfresh2 : ∀ x ∈ rest,
        mapLookup (m.pairs ++ [(nm, i)]) x = none := by
      intro x hx
      have hxf : mapLookup m.pairs x = none := hfresh x (by simp [hx])
      rw [mapLookup_append_right hxf]
      exact mapLookup_singleton_ne i (fun he => hnd.1 (he ▸ hx))
    rw [hassign]
    rw [ih { numColumns := m.numColumns + 1, pairs := m.pairs ++ [(nm, i)] }
      (i + 1) hfresh2 hnd.2]
    simp only [Except.ok.injEq, columnMapping.mk.injEq]
    refine ⟨by simp; omega, ?_⟩
    show (m.pairs ++ [(nm, i)]) ++ indexedFrom (i + 1) rest
      = m.pairs ++ indexedFrom i (nm :: rest)
    rw [List.append_assoc]
    rfl

theorem mapLookup_indexedFrom_of_getElem (names : List String) :
    ∀ (i k : Nat) (f : String), names.Nodup → names[k]? = some f →
      mapLookup (indexedFrom i names) f = some (i + k) := by
  induction names with
  | nil => intro i k f _ h; simp at h
  | cons nm rest ih =>
    intro i k f hnd h
    rw [List.nodup_cons] at hnd
    cases k with
    | zero =>
      simp only [List.getElem?_cons_zero, Option.some.injEq] at h
      subst h
      show mapLookup ((nm, i) :: indexedFrom (i + 1) rest) nm = some (i + 0)
      rw [mapLookup_cons_self]
      simp
    | succ k1 =>
      simp only [List.getElem?_cons_succ] at h
      have hmem : f ∈ rest := by
        rw [List.mem_iff_getElem?]
        exact ⟨k1, h⟩
      have hne : nm ≠ f := fun he => hnd.1 (he ▸ hmem)
      show mapLookup ((nm, i) :: indexedFrom (i + 1) rest) f
        = some (i + (k1 + 1))
      rw [mapLookup_cons_ne hne]
      rw [ih (i + 1) k1 f hnd.2 h]
      congr 1
      omega

theorem mapLookup_indexedFrom_inv (names : List String) :
    ∀ (i : Nat) (f : String) (j : Nat),
      mapLookup (indexedFrom i names) f = some j →
      ∃ k : Nat, names[k]? = some f := by
  induction names with
  | nil => intro i f j h; simp [indexedFrom, mapLookup, List.find?] at h
  | cons nm rest ih =>
    intro i f j h
    have h2 : mapLookup ((nm, i) :: indexedFrom (i + 1) rest) f = some j := h
    by_cases he : nm = f
    · exact ⟨0, by simp [he]⟩
    · rw [mapLookup_cons_ne he] at h2
      obtain ⟨k, hk⟩ := ih (i + 1) f j h2
      exact ⟨k + 1, by simpa using hk⟩

/-- Claim C9: for every column mapping with pairwise-distinct field names
whose assigned indices are exactly 0..numColumns-1 (as a permutation of
that range), putSchema builds a header row placing each name at its index
(the scatter succeeds), and parsing that row back through
newMappingFromValueRange yields a mapping with the same column count and
the same name-to-index assignments. -/
theorem putSchema_roundtrip (m : columnMapping)
    (hnames : (m.pairs.map Prod.fst).Nodup)
    (hperm : (m.pairs.map Prod.snd).Perm (List.range m.numColumns)) :
    ∃ row m2, putSchemaRow m = some row
      ∧ newMappingFromValueRange [row] = .ok m2
      ∧ m2.numColumns = m.numColumns
      ∧ ∀ f, mapLookup m2.pairs f = mapLookup m.pairs f := by
  have hlt : ∀ p ∈ m.pairs, p.2 < m.numColumns := by
    intro p hp
    exact List.mem_range.mp
      (hperm.mem_iff.mp (List.mem_map.mpr ⟨p, hp, rfl⟩))
  have hndsnd : (m.pairs.map Prod.snd).Nodup :=
    hperm.nodup_iff.mpr (List.nodup_range m.numColumns)
  obtain ⟨row2, hfold, hlen, hget⟩ := putSchemaRow_fold m.pairs
    (List.replicate m.numColumns GoValue.nonString)
    (by simpa using hlt) hndsnd
  have hlen2 : row2.length = m.numColumns := by simpa using hlen
  have hsurj : ∀ i, i < m.numColumns →
      ∃ p, p ∈ m.pairs ∧ p.2 = i ∧ row2[i]? = some (.str p.1) := by
    intro i hi
    have hmemsnd : i ∈ m.pairs.map Prod.snd :=
      hperm.mem_iff.mpr (List.mem_range.mpr hi)
    obtain ⟨p, hp, hpi⟩ := List.mem_map.mp hmemsnd
    have hfindsome : (m.pairs.find? (fun q => q.2 == i)).isSome :=
      List.find?_isSome.mpr ⟨p, hp, by simp [hpi]⟩
    cases hfind : m.pairs.find? (fun q => q.2 == i) with
    | none => rw [hfind] at hfindsome; simp at hfindsome
    | some q =>
      have hchar := hget i (by simpa using hi)
      rw [hfind] at hchar
      have hchar2 : row2[i]? = some (GoValue.str q.1) := hchar
      refine ⟨q, List.mem_of_find?_eq_some hfind, ?_, hchar2⟩
      have := List.find?_some hfind
      simpa using this
  have hsndinj := List.inj_on_of_nodup_map hndsnd
  have hfstinj := List.inj_on_of_nodup_map hnames
  have hnameslen : (row2.map goValueText).length = m.numColumns := by
    simpa using hlen2
  have hnames_i : ∀ i, i < m.numColumns →
      ∃ p, p ∈ m.pairs ∧ p.2 = i
        ∧ (row2.map goValueText)[i]? = some p.1 := by
    intro i hi
    obtain ⟨p, hp, hpi, hrow⟩ := hsurj i hi
    refine ⟨p, hp, hpi, ?_⟩
    rw [List.getElem?_map, hrow]
    rfl
  have hrow2eq : row2 = (row2.map goValueText).map GoValue.str := by
    apply List.ext_getElem?
    intro k
    by_cases hk : k < m.numColumns
    · obtain ⟨p, hp, hpi, hrow⟩ := hsurj k hk
      rw [List.getElem?_map, List.getElem?_map, hrow]
      rfl
    · have hk2 : row2.length ≤ k := by omega
      rw [List.getElem?_eq_none hk2]
      rw [List.getElem?_eq_none (by simpa using hk2)]
  have hnodupnames : (row2.map goValueText).Nodup := by
    rw [List.nodup_iff_injective_get]
    intro a b hab
    have ha := hnames_i a.1 (by rw [← hnameslen]; exact a.2)
    have hb := hnames_i b.1 (by rw [← hnameslen]; exact b.2)
    obtain ⟨p, hp, hpi, hpa⟩ := ha
    obtain ⟨q, hq, hqi, hqb⟩ := hb
    have hga : (row2.map goValueText).get a = p.1 := by
      have := List.getElem?_eq_getElem a.2
      rw [List.get_eq_getElem]
      rw [this] at hpa
      simpa using hpa
    have hgb : (row2.map goValueText).get b = q.1 := by
      have := List.getElem?_eq_getElem b.2
      rw [List.get_eq_getElem]
      rw [this] at hqb
      simpa using hqb
    have hpq : p = q := by
      apply hfstinj hp hq
      rw [hga, hgb] at hab
      exact hab
    apply Fin.ext
    rw [← hpi, ← hqi, hpq]
  have hparse := mappingRowLoop_strings (row2.map goValueText) newMapping 0
    (fun nm _ => rfl) hnodupnames
  have hnmvr : newMappingFromValueRange [row2]
      = .ok { numColumns := m.numColumns,
              pairs := indexedFrom 0 (row2.map goValueText) } := by
    unfold newMappingFromValueRange
    rw [if_neg (by simp)]
    show mappingRowLoop newMapping 0 row2 = _
    nth_rewrite 1 [hrow2eq]
    rw [hparse]
    simp only [Except.ok.injEq, columnMapping.mk.injEq]
    exact ⟨by simp [newMapping, hnameslen], by simp [newMapping]⟩
  refine ⟨row2,
    { numColumns := m.numColumns,
      pairs := indexedFrom 0 (row2.map goValueText) },
    hfold, hnmvr, rfl, ?_⟩
  intro f
  show mapLookup (indexedFrom 0 (row2.map goValueText)) f
    = mapLookup m.pairs f
  cases hmf : mapLookup m.pairs f with
  | some i =>
    have hmem : (f, i) ∈ m.pairs := mapLookup_mem hmf
    have hi : i < m.numColumns := hlt (f, i) hmem
    obtain ⟨p, hp, hpi, hname⟩ := hnames_i i hi
    have hpf : p = (f, i) := hsndinj hp hmem (by simp [hpi])
    have hnamef : (row2.map goValueText)[i]? = some f := by
      rw [hname, hpf]
    have := mapLookup_indexedFrom_of_getElem (row2.map goValueText)
      0 i f hnodupnames hnamef
    simpa using this
  | none =>
    cases hlook : mapLookup (indexedFrom 0 (row2.map goValueText)) f with
    | none => rfl
    | some j =>
      exfalso
      obtain ⟨k, hk⟩ := mapLookup_indexedFrom_inv (row2.map goValueText)
        0 f j hlook
      have hklen : k < (row2.map goValueText).length := by
        by_contra hge
        rw [List.getElem?_eq_none (by omega)] at hk
        simp at hk
      have hkn : k < m.numColumns := by
        rw [hnameslen] at hklen
        exact hklen
      obtain ⟨p, hp, hpk, hname⟩ := hnames_i k hkn
      have hpf : p.1 = f := by
        rw [hname] at hk
        simpa using hk
      have hsome : (mapLookup m.pairs f).isSome := by
        have hpmem : (f, p.2) ∈ m.pairs := by
          have hpe : p = (f, p.2) := by
            cases p with
            | mk a b =>
              simp only [Prod.mk.injEq]
              exact ⟨hpf, trivial⟩
          rwa [hpe] at hp
        exact mapLookup_isSome_of_mem hpmem
      rw [hmf] at hsome
      simp at hsome

theorem putSchema_roundtrip_witness :
    ∃ row m2,
      putSchemaRow { numColumns := 2, pairs := [("B", 1), ("A", 0)] }
        = some row
      ∧ newMappingFromValueRange [row] = .ok m2
      ∧ m2.numColumns = 2
      ∧ ∀ f, mapLookup m2.pairs f
          = mapLookup [("B", 1), ("A", 0)] f := by
  exact putSchema_roundtrip { numColumns := 2, pairs := [("B", 1), ("A", 0)] }
    (by decide) (by decide)

end ConcurrencyStandings
